import Mathlib

namespace MCPAgentVerif

/-! ## Data model

Shallow embedding of the three scripts under src/ together with a model of the
tool-use orchestration core.  The orchestration core (the MCPAgent / MCPClient
classes of the mcp_use library) is not part of this repository, so its behaviour
is modelled from the specification; the per-script configuration, prompt
construction and cleanup control flow are translated from the source files. -/

/-- Usage of one LLM exchange: token count and cost (cost measured in an integral
unit such as micro-dollars, since the meter only ever adds reported amounts). -/
structure UsageRecord where
  tokens : Nat
  cost : Nat
deriving DecidableEq, Repr

def UsageRecord.add (m u : UsageRecord) : UsageRecord :=
  ⟨m.tokens + u.tokens, m.cost + u.cost⟩

/-- Modelled from the spec: one reply of the LLM service during an ACT exchange
(spec 4.4): a tool call, a final answer, or an unrecoverable service error. -/
inductive LLMResponse
  | tool (name args : String)
  | final (text : String)
  | error
deriving DecidableEq, Repr

/-- One LLM exchange: the reply together with its reported usage. -/
abbrev Exchange := LLMResponse × UsageRecord

/-- Modelled from the spec: the raw result of a tool invocation as seen by the
loop (spec 4.3): an observation payload or one of the two failure kinds. -/
inductive ToolOutcome
  | ok (text : String)
  | toolNotAllowed
  | toolExecutionError
deriving DecidableEq, Repr

/-- Modelled from the spec: the action the model chose in one step (spec 3,
Step): a tool call, or the sentinel meaning final answer. -/
inductive Action
  | tool (name args : String)
  | finalAnswer
deriving DecidableEq, Repr

/-- Modelled from the spec: one recorded act/observe cycle (spec 3, Step).
Indices are ordinal, starting at 1; a final-answer sentinel step carries no
observation. -/
structure Step where
  index : Nat
  action : Action
  obs : Option ToolOutcome
deriving DecidableEq, Repr

/-- Modelled from the spec: completion reason of a run (spec 3, RunResult). -/
inductive Reason
  | answered
  | budgetExhausted
  | failed
deriving DecidableEq, Repr

/-- Modelled from the spec: the immutable run configuration (spec 3, RunConfig);
only the fields the claims mention are kept. -/
structure RunConfig where
  budget : Nat
  disallowed : List String
deriving DecidableEq, Repr

/-- Modelled from the spec: the RunResult delivered to the caller (spec 3),
extended with the bookkeeping the claims talk about: the recorded steps, the
steps-taken count at each entry of the reflection checkpoint, the tool names
that were forwarded to the remote client, the number of still-open session
handles, and the log of per-exchange usage reports. -/
structure RunResult where
  answer : String
  usage : UsageRecord
  reason : Reason
  steps : List Step
  reflections : List Nat
  remoteCalls : List String
  openSessions : Nat
  exchangeLog : List UsageRecord
deriving DecidableEq, Repr

/-- Internal state threaded through the orchestration loop. -/
structure LoopState where
  stepsTaken : Nat
  reflected : Bool
  idx : Nat
  steps : List Step
  exchanges : List UsageRecord
  meter : UsageRecord
  reflections : List Nat
  remoteCalls : List String
  sessionOpen : Bool
deriving DecidableEq, Repr

def initState : LoopState :=
  ⟨0, false, 0, [], [], ⟨0, 0⟩, [], [], false⟩

/-- Modelled from the spec: Tool Catalog Gate (spec 4.1):
allowed = advertised minus disallowed, computed once per run. -/
def gateAllowed (advertised disallowed : List String) : List String :=
  advertised.filter (fun t => !(disallowed.contains t))

/-- Modelled from the spec: Usage Meter update (spec 4.5): every LLM exchange
adds its reported usage to the running totals and is logged; the cursor into
the LLM reply stream advances. -/
def noteExchange (s : LoopState) (u : UsageRecord) : LoopState :=
  { s with meter := s.meter.add u, exchanges := s.exchanges ++ [u], idx := s.idx + 1 }

/-- Modelled from the spec: the observation half of the Tool Invocation Bridge
(spec 4.3): a name outside the allowed set yields the rejection marker; an
allowed name yields the raw remote result, or the execution-error marker when
the remote call fails. -/
def bridgeOutcome (allowed : List String) (env : String → String → Option String)
    (name args : String) : ToolOutcome :=
  if allowed.contains name then
    match env name args with
    | some r => ToolOutcome.ok r
    | none => ToolOutcome.toolExecutionError
  else ToolOutcome.toolNotAllowed

/-- Modelled from the spec: the state half of the Tool Invocation Bridge
(spec 4.3): only an allowed name is forwarded to the remote client (opening a
session lazily, exactly one forward, no retry); a rejected name leaves the
remote client untouched. -/
def bridgeState (allowed : List String) (name : String) (s : LoopState) : LoopState :=
  if allowed.contains name then
    { s with sessionOpen := true, remoteCalls := s.remoteCalls ++ [name] }
  else s

/-- Modelled from the spec: Tool Invocation Bridge (spec 4.3), packaging the
observation and the state update. -/
def bridgeInvoke (allowed : List String) (env : String → String → Option String)
    (name args : String) (s : LoopState) : ToolOutcome × LoopState :=
  (bridgeOutcome allowed env name args, bridgeState allowed name s)

/-- Modelled from the spec: the Step after an OBSERVE (spec 4.4): the bridge runs,
the resulting step is appended to the transcript, and the Step Controller
records the step. -/
def toolCycleState (allowed : List String) (env : String → String → Option String)
    (name args : String) (s : LoopState) : LoopState :=
  let p := bridgeInvoke allowed env name args s
  { p.2 with
    steps := p.2.steps ++ [⟨p.2.stepsTaken + 1, Action.tool name args, some p.1⟩],
    stepsTaken := p.2.stepsTaken + 1 }

/-- Modelled from the spec: the cycle in which the model emits a final answer also
records a step (spec 4.2, record_step), with the final-answer sentinel. -/
def finalState (s : LoopState) : LoopState :=
  { s with
    steps := s.steps ++ [⟨s.stepsTaken + 1, Action.finalAnswer, none⟩],
    stepsTaken := s.stepsTaken + 1 }

/-- Modelled from the spec: the REFLECT checkpoint (spec 4.4): one extra LLM
exchange, counted by the meter but not by the step budget; the reflected flag is
set and the steps-taken count at entry is recorded. -/
def reflectState (u : UsageRecord) (s : LoopState) : LoopState :=
  { noteExchange s u with
    reflected := true, reflections := s.reflections ++ [s.stepsTaken] }

/-- Modelled from the spec: Session Lifecycle Manager (spec 4.6): on every exit
path all tracked session handles are closed, so a finished run reports zero open
sessions; the finished RunResult snapshots the meter and the transcript. -/
def finish (s : LoopState) (answer : String) (reason : Reason) : RunResult :=
  { answer := answer, usage := s.meter, reason := reason, steps := s.steps,
    reflections := s.reflections, remoteCalls := s.remoteCalls,
    openSessions := 0, exchangeLog := s.exchanges }

/-- Modelled from the spec: the Orchestrator loop (spec 4.4) with the Step
Controller budget check (spec 4.2).  `f i` is the i-th reply of the LLM service.
Fuel is structural recursion bookkeeping only: `run` passes budget + 1, and each
iteration both consumes one fuel and records one step, so the fuel-exhausted
default (identical to the budget-exhausted exit) is never reached. -/
def loop (cfg : RunConfig) (allowed : List String)
    (env : String → String → Option String) (f : Nat → Exchange) :
    Nat → LoopState → RunResult
  | 0, s => finish s "" Reason.budgetExhausted
  | fuel + 1, s =>
    if s.stepsTaken < cfg.budget then
      match (f s.idx).1 with
      | LLMResponse.error => finish (noteExchange s (f s.idx).2) "" Reason.failed
      | LLMResponse.final text =>
          finish (finalState (noteExchange s (f s.idx).2)) text Reason.answered
      | LLMResponse.tool name args =>
          let s3 := toolCycleState allowed env name args (noteExchange s (f s.idx).2)
          if s3.stepsTaken = 1 ∧ s3.reflected = false then
            let s4 := reflectState (f s3.idx).2 s3
            match (f s3.idx).1 with
            | LLMResponse.error => finish s4 "" Reason.failed
            | _ => loop cfg allowed env f fuel s4
          else loop cfg allowed env f fuel s3
    else finish s "" Reason.budgetExhausted

/-- Modelled from the spec: the caller-facing run interface (spec 6): it always
returns a RunResult (a total function; failures become the failed reason rather
than an escaping exception). -/
def run (cfg : RunConfig) (advertised : List String)
    (env : String → String → Option String) (f : Nat → Exchange) : RunResult :=
  loop cfg (gateAllowed advertised cfg.disallowed) env f (cfg.budget + 1) initState

/-! ## Per-script agent configuration, from the source files -/

/-- From src/agent_restaurants.py lines 135-140:
MCPAgent(llm, client, max_steps=40, disallowed_tools=["shell"]). -/
def restaurants_agent : RunConfig := ⟨40, ["shell"]⟩

/-- From src/agent_stocks.py line 187:
MCPAgent(llm, client, max_steps=60, disallowed_tools=["shell"]). -/
def stocks_agent : RunConfig := ⟨60, ["shell"]⟩

/-- From src/air_bnb_agent.py line 21:
MCPAgent(llm, client, max_steps=30), with no disallowed_tools argument. -/
def airbnb_agent : RunConfig := ⟨30, []⟩

/-- The three agent configurations built by the scripts under src/. -/
def scriptConfigs : List RunConfig := [restaurants_agent, stocks_agent, airbnb_agent]

/-! ## Session cleanup control flow, from the source files -/

/-- The outcome of `await agent.run(...)` as observed by the calling script: a
normal return carrying the result string, or an exception / cancellation that
propagates out of the await expression. -/
inductive AgentOutcome
  | returns (result : String)
  | raises
deriving DecidableEq, Repr

/-- From src/agent_restaurants.py lines 159-172: after `result = await
agent.run(full_prompt)` the function prints and then runs
`if client.sessions: await client.close_all_sessions()`.  There is no
try/finally, so when agent.run raises, the guarded cleanup call is never
reached; on a normal return it runs exactly when the session dict is
non-empty.  The value is whether close_all_sessions is executed. -/
def restaurants_main_cleanup (o : AgentOutcome) (sessionsNonempty : Bool) : Bool :=
  match o with
  | AgentOutcome.returns _ => sessionsNonempty
  | AgentOutcome.raises => false

/-- From src/agent_stocks.py lines 194-210: same shape as the restaurants
script, with the guarded cleanup after the prints and no try/finally. -/
def stocks_run_cleanup (o : AgentOutcome) (sessionsNonempty : Bool) : Bool :=
  match o with
  | AgentOutcome.returns _ => sessionsNonempty
  | AgentOutcome.raises => false

/-- From src/air_bnb_agent.py lines 23-35: the agent.run call sits inside
`try: ... finally: if client.sessions: await client.close_all_sessions()`, so
the guarded cleanup executes on every exit path, raising or not. -/
def airbnb_cleanup (o : AgentOutcome) (sessionsNonempty : Bool) : Bool :=
  match o with
  | _ => sessionsNonempty

/-! ## Usage reporting, from the source files -/

/-- From src/agent_restaurants.py lines 159-168 and src/agent_stocks.py lines
194-206: the OpenAI callback meter wraps exactly the `await agent.run(...)`
call, and its totals (cb.total_tokens, cb.total_cost) are printed afterwards.
The shallow embedding reports the usage snapshot of the finished run. -/
def metered_report (r : RunResult) : Option UsageRecord := some r.usage

/-- From src/air_bnb_agent.py: the script prints only the result string; it
never opens a usage callback and reports no token or cost totals at all. -/
def airbnb_report (_r : RunResult) : Option UsageRecord := none

/-! ## Prompt construction, from the source files -/

/-- From src/agent_restaurants.py lines 80-88: the system-level instruction
string AGENT_SYSTEM_PROMPT. -/
def restaurantsSystemPrompt : String :=
  "You are a culinary concierge. You excel at reading live web pages and " ++
  "comparing ratings, price, and ambience. " ++
  "After your first web search, pause and reflect in ONE sentence on whether " ++
  "your current plan will satisfy the user; adjust if needed before returning " ++
  "a final ranked list (max 5 spots).\n" ++
  "Respond in exactly this format (one restaurant per line):\n" ++
  "⭐️ <name> – <rating>/5 – <price> – <short reason>"

/-- From src/agent_restaurants.py lines 145-152: the user request composed from
the CLI flags.  Python truthiness on the strings means the cuisine and budget
clauses are present exactly when the corresponding argument is non-empty. -/
def restaurants_user_query (city cuisine budget guests : String) : String :=
  "Find the best " ++
  (if cuisine = "" then "" else cuisine ++ " ") ++
  "restaurant in " ++ city ++ " for " ++ guests ++ " guests" ++
  (if budget = "" then "" else " with a budget of " ++ budget) ++
  ". Use Google search and any review sites you can access. " ++
  "Return a ranked list with ratings and a short rationale."

/-- From src/agent_restaurants.py line 154: full_prompt. -/
def restaurants_full_prompt (city cuisine budget guests : String) : String :=
  restaurantsSystemPrompt ++ "\n\n" ++ restaurants_user_query city cuisine budget guests

/-- From src/agent_stocks.py: the parsed argparse namespace for the stocks
script (sector, strategy, min_cap, limit). -/
structure StocksArgs where
  sector : String
  strategy : String
  min_cap : Int
  limit : Int
deriving DecidableEq, Repr

/-- From src/agent_stocks.py lines 105-138: argparse restricts --strategy to
the three choices; --min_cap and --limit are bare type=int conversions, with
no range validation of the documented 1-10 bound on --limit. -/
def stocks_parse_args (sector strategy : String) (min_cap limit : Int) :
    Option StocksArgs :=
  if strategy = "value" ∨ strategy = "growth" ∨ strategy = "dividend" then
    some ⟨sector, strategy, min_cap, limit⟩
  else none

/-- Groups a reversed digit list in threes, inserting commas, as the Python
format spec `,` does. -/
def group3 : List Char → List Char
  | [] => []
  | [a] => [a]
  | [a, b] => [a, b]
  | [a, b, c] => [a, b, c]
  | a :: b :: c :: rest => a :: b :: c :: ',' :: group3 rest

/-- Decimal rendering of a natural number with thousands separators. -/
def commaFormatNat (n : Nat) : String :=
  String.mk ((group3 (toString n).toList.reverse).reverse)

/-- Python f-string `{n:,}` for an int: thousands separators, minus sign for
negative values. -/
def commaFormatInt (n : Int) : String :=
  if n < 0 then "-" ++ commaFormatNat n.natAbs else commaFormatNat n.natAbs

/-- From src/agent_stocks.py lines 89-99 composed with the
AGENT_SYSTEM_PROMPT.format(limit=args.limit) call at line 164: the single
placeholder of the template is replaced by the decimal rendering of the
limit. -/
def stocks_system_prompt (limit : Int) : String :=
  "You are an equity-research analyst armed with a headless browser.\n" ++
  "Workflow:\n" ++
  "1. Use Google / Yahoo Finance / Finviz (or similar) to pull **live** data.\n" ++
  "2. After the first scrape, pause and reflect in ONE sentence on whether the " ++
  "data gathered is adequate for screening; adjust the plan if needed.\n" ++
  "3. Rank up to " ++ toString limit ++
  " tickers by the chosen strategy, justifying each pick " ++
  "with a single line.\n\n" ++
  "Output must be a markdown table with these columns:\n" ++
  "| Rank | Ticker | Price | P/E | Yield | Reason |"

/-- From src/agent_stocks.py lines 158-163: the user request. -/
def stocks_user_req (a : StocksArgs) : String :=
  "Find publicly-traded " ++ a.sector ++ " companies " ++
  "with a market cap above $" ++ commaFormatInt a.min_cap ++ ". " ++
  "Apply a " ++ a.strategy ++ " strategy and return your " ++ toString a.limit ++
  " top picks. " ++
  "Provide live fundamentals (price, P/E, dividend yield) and a short why."

/-- From src/agent_stocks.py line 164: full prompt = formatted system
instructions + blank line + user request. -/
def make_prompt (a : StocksArgs) : String :=
  stocks_system_prompt a.limit ++ "\n\n" ++ stocks_user_req a

/-- From src/air_bnb_agent.py lines 25-30: the literal query handed to
agent.run. -/
def airbnb_query : String :=
  "Find me a nice place to stay in Ibiza for 2 adults " ++
  "for a week in July. I prefer places with a pool and " ++
  "a good view of the sea and good reviews. I don\x27t want to spend more than 3000€. " ++
  "Show me the top 3 options."

/-! ## Invariant vocabulary for the orchestration loop -/

/-- Total usage of a list of per-exchange usage reports. -/
def meterOf (l : List UsageRecord) : UsageRecord :=
  l.foldl UsageRecord.add ⟨0, 0⟩

/-- What holds of each recorded step: a final-answer sentinel carries no
observation; a tool step carries the rejection marker when its name is outside
the allowed set, and otherwise the raw remote result or the execution-error
marker. -/
def StepOk (allowed : List String) (env : String → String → Option String)
    (st : Step) : Prop :=
  match st.action with
  | Action.finalAnswer => st.obs = none
  | Action.tool n a =>
      (allowed.contains n = false → st.obs = some ToolOutcome.toolNotAllowed) ∧
      (allowed.contains n = true →
        st.obs = some ((env n a).elim ToolOutcome.toolExecutionError ToolOutcome.ok))

/-- The loop invariant: transcript length agrees with the step counter, the
counter respects the budget, the meter agrees with the exchange log, the
reflection record is empty before the checkpoint and exactly [1] after it,
every forwarded tool name is allowed, forwards never outnumber steps, and every
recorded step satisfies StepOk. -/
structure Inv (cfg : RunConfig) (allowed : List String)
    (env : String → String → Option String) (s : LoopState) : Prop where
  steps_len : s.steps.length = s.stepsTaken
  steps_le : s.stepsTaken ≤ cfg.budget
  meter_eq : s.meter = meterOf s.exchanges
  refl_off : s.reflected = false → s.reflections = []
  refl_on : s.reflected = true → s.reflections = [1]
  remote_allowed : ∀ t ∈ s.remoteCalls, allowed.contains t = true
  remote_le : s.remoteCalls.length ≤ s.steps.length
  steps_ok : ∀ st ∈ s.steps, StepOk allowed env st

/-- What every finished run satisfies: the step bound, the failed-run answer
shape, full session cleanup, the at-most-one reflection record, the tool gate on
remote forwards, the no-retry bound, per-step observation correctness, and the
meter / exchange-log agreement. -/
def GoodResult (cfg : RunConfig) (allowed : List String)
    (env : String → String → Option String) (r : RunResult) : Prop :=
  r.steps.length ≤ cfg.budget ∧
  (r.reason = Reason.failed → r.answer = "") ∧
  r.openSessions = 0 ∧
  (r.reflections = [] ∨ r.reflections = [1]) ∧
  (∀ t ∈ r.remoteCalls, allowed.contains t = true) ∧
  r.remoteCalls.length ≤ r.steps.length ∧
  (∀ st ∈ r.steps, StepOk allowed env st) ∧
  r.usage = meterOf r.exchangeLog

/-! ## Theorems: basic projection and meter lemmas -/

@[simp]
theorem bridgeState_stepsTaken (allowed : List String) (name : String) (s : LoopState) :
    (bridgeState allowed name s).stepsTaken = s.stepsTaken := by
  unfold bridgeState; split <;> rfl

@[simp]
theorem bridgeState_steps (allowed : List String) (name : String) (s : LoopState) :
    (bridgeState allowed name s).steps = s.steps := by
  unfold bridgeState; split <;> rfl

@[simp]
theorem bridgeState_reflected (allowed : List String) (name : String) (s : LoopState) :
    (bridgeState allowed name s).reflected = s.reflected := by
  unfold bridgeState; split <;> rfl

@[simp]
theorem bridgeState_reflections (allowed : List String) (name : String) (s : LoopState) :
    (bridgeState allowed name s).reflections = s.reflections := by
  unfold bridgeState; split <;> rfl

@[simp]
theorem bridgeState_meter (allowed : List String) (name : String) (s : LoopState) :
    (bridgeState allowed name s).meter = s.meter := by
  unfold bridgeState; split <;> rfl

@[simp]
theorem bridgeState_exchanges (allowed : List String) (name : String) (s : LoopState) :
    (bridgeState allowed name s).exchanges = s.exchanges := by
  unfold bridgeState; split <;> rfl

@[simp]
theorem bridgeState_idx (allowed : List String) (name : String) (s : LoopState) :
    (bridgeState allowed name s).idx = s.idx := by
  unfold bridgeState; split <;> rfl

theorem bridgeState_remoteCalls (allowed : List String) (name : String) (s : LoopState) :
    (bridgeState allowed name s).remoteCalls =
      if allowed.contains name then s.remoteCalls ++ [name] else s.remoteCalls := by
  unfold bridgeState; split <;> rfl

@[simp]
theorem toolCycleState_stepsTaken (allowed : List String)
    (env : String → String → Option String) (name args : String) (s : LoopState) :
    (toolCycleState allowed env name args s).stepsTaken = s.stepsTaken + 1 := by
  simp [toolCycleState, bridgeInvoke]

@[simp]
theorem toolCycleState_steps (allowed : List String)
    (env : String → String → Option String) (name args : String) (s : LoopState) :
    (toolCycleState allowed env name args s).steps =
      s.steps ++ [⟨s.stepsTaken + 1, Action.tool name args,
        some (bridgeOutcome allowed env name args)⟩] := by
  simp [toolCycleState, bridgeInvoke]

@[simp]
theorem toolCycleState_reflected (allowed : List String)
    (env : String → String → Option String) (name args : String) (s : LoopState) :
    (toolCycleState allowed env name args s).reflected = s.reflected := by
  simp [toolCycleState, bridgeInvoke]

@[simp]
theorem toolCycleState_reflections (allowed : List String)
    (env : String → String → Option String) (name args : String) (s : LoopState) :
    (toolCycleState allowed env name args s).reflections = s.reflections := by
  simp [toolCycleState, bridgeInvoke]

@[simp]
theorem toolCycleState_meter (allowed : List String)
    (env : String → String → Option String) (name args : String) (s : LoopState) :
    (toolCycleState allowed env name args s).meter = s.meter := by
  simp [toolCycleState, bridgeInvoke]

@[simp]
theorem toolCycleState_exchanges (allowed : List String)
    (env : String → String → Option String) (name args : String) (s : LoopState) :
    (toolCycleState allowed env name args s).exchanges = s.exchanges := by
  simp [toolCycleState, bridgeInvoke]

@[simp]
theorem toolCycleState_idx (allowed : List String)
    (env : String → String → Option String) (name args : String) (s : LoopState) :
    (toolCycleState allowed env name args s).idx = s.idx := by
  simp [toolCycleState, bridgeInvoke]

theorem toolCycleState_remoteCalls (allowed : List String)
    (env : String → String → Option String) (name args : String) (s : LoopState) :
    (toolCycleState allowed env name args s).remoteCalls =
      if allowed.contains name then s.remoteCalls ++ [name] else s.remoteCalls := by
  simp [toolCycleState, bridgeInvoke, bridgeState_remoteCalls]

theorem meterOf_append (l : List UsageRecord) (u : UsageRecord) :
    meterOf (l ++ [u]) = (meterOf l).add u := by
  simp [meterOf, List.foldl_append]

theorem foldl_add_tokens (l : List UsageRecord) :
    ∀ init : UsageRecord,
      (l.foldl UsageRecord.add init).tokens
        = init.tokens + (l.map UsageRecord.tokens).sum := by
  induction l with
  | nil => intro init; simp
  | cons u t ih =>
      intro init
      simp only [List.foldl_cons, List.map_cons, List.sum_cons, ih, UsageRecord.add]
      omega

theorem foldl_add_cost (l : List UsageRecord) :
    ∀ init : UsageRecord,
      (l.foldl UsageRecord.add init).cost
        = init.cost + (l.map UsageRecord.cost).sum := by
  induction l with
  | nil => intro init; simp
  | cons u t ih =>
      intro init
      simp only [List.foldl_cons, List.map_cons, List.sum_cons, ih, UsageRecord.add]
      omega

theorem meterOf_tokens (l : List UsageRecord) :
    (meterOf l).tokens = (l.map UsageRecord.tokens).sum := by
  simpa using foldl_add_tokens l ⟨0, 0⟩

theorem meterOf_cost (l : List UsageRecord) :
    (meterOf l).cost = (l.map UsageRecord.cost).sum := by
  simpa using foldl_add_cost l ⟨0, 0⟩

/-! ## Theorems: invariant preservation -/

theorem inv_init (cfg : RunConfig) (allowed : List String)
    (env : String → String → Option String) : Inv cfg allowed env initState := by
  refine ⟨rfl, Nat.zero_le _, rfl, fun _ => rfl, ?_, ?_, Nat.le_refl _, ?_⟩
  · intro h; exact absurd h (by simp [initState])
  · intro t ht; exact absurd ht (by simp [initState])
  · intro st hst; exact absurd hst (by simp [initState])

theorem inv_noteExchange {cfg : RunConfig} {allowed : List String}
    {env : String → String → Option String} {s : LoopState}
    (h : Inv cfg allowed env s) (u : UsageRecord) :
    Inv cfg allowed env (noteExchange s u) := by
  refine ⟨h.steps_len, h.steps_le, ?_, h.refl_off, h.refl_on, h.remote_allowed,
    h.remote_le, h.steps_ok⟩
  show s.meter.add u = meterOf (s.exchanges ++ [u])
  rw [meterOf_append, h.meter_eq]

theorem inv_finalState {cfg : RunConfig} {allowed : List String}
    {env : String → String → Option String} {s : LoopState}
    (h : Inv cfg allowed env s) (hb : s.stepsTaken < cfg.budget) :
    Inv cfg allowed env (finalState s) := by
  refine ⟨?_, ?_, h.meter_eq, h.refl_off, h.refl_on, h.remote_allowed, ?_, ?_⟩
  · show (s.steps ++ [_]).length = s.stepsTaken + 1
    simp [h.steps_len]
  · exact hb
  · show s.remoteCalls.length ≤ (s.steps ++ [_]).length
    have := h.remote_le
    simp only [List.length_append, List.length_cons, List.length_nil]
    omega
  · intro st hst
    rcases List.mem_append.mp hst with hmem | hnew
    · exact h.steps_ok st hmem
    · rcases List.mem_singleton.mp hnew with rfl
      exact rfl

theorem inv_toolCycleState {cfg : RunConfig} {allowed : List String}
    {env : String → String → Option String} {s : LoopState}
    (h : Inv cfg allowed env s) (hb : s.stepsTaken < cfg.budget)
    (name args : String) :
    Inv cfg allowed env (toolCycleState allowed env name args s) := by
  refine ⟨?_, ?_, ?_, ?_, ?_, ?_, ?_, ?_⟩
  · simp [h.steps_len]
  · simpa using hb
  · simpa using h.meter_eq
  · simpa using h.refl_off
  · simpa using h.refl_on
  · intro t ht
    rw [toolCycleState_remoteCalls] at ht
    by_cases hc : allowed.contains name
    · rw [if_pos hc] at ht
      rcases List.mem_append.mp ht with hmem | hnew
      · exact h.remote_allowed t hmem
      · rcases List.mem_singleton.mp hnew with rfl
        exact hc
    · rw [if_neg hc] at ht
      exact h.remote_allowed t ht
  · rw [toolCycleState_remoteCalls, toolCycleState_steps]
    have := h.remote_le
    by_cases hc : allowed.contains name = true
    · rw [if_pos hc]
      simp only [List.length_append, List.length_cons, List.length_nil]
      omega
    · rw [if_neg hc]
      simp only [List.length_append, List.length_cons, List.length_nil]
      omega
  · intro st hst
    rw [toolCycleState_steps] at hst
    rcases List.mem_append.mp hst with hmem | hnew
    · exact h.steps_ok st hmem
    · rcases List.mem_singleton.mp hnew with rfl
      refine ⟨?_, ?_⟩
      · intro hc
        show some (bridgeOutcome allowed env name args) = some ToolOutcome.toolNotAllowed
        unfold bridgeOutcome
        rw [hc]
        simp
      · intro hc
        show some (bridgeOutcome allowed env name args)
          = some ((env name args).elim ToolOutcome.toolExecutionError ToolOutcome.ok)
        unfold bridgeOutcome
        rw [hc]
        cases env name args <;> simp

theorem inv_reflectState {cfg : RunConfig} {allowed : List String}
    {env : String → String → Option String} {s : LoopState}
    (h : Inv cfg allowed env s) (hr : s.reflected = false) (h1 : s.stepsTaken = 1)
    (u : UsageRecord) :
    Inv cfg allowed env (reflectState u s) := by
  refine ⟨h.steps_len, h.steps_le, ?_, ?_, ?_, h.remote_allowed, h.remote_le, h.steps_ok⟩
  · show s.meter.add u = meterOf (s.exchanges ++ [u])
    rw [meterOf_append, h.meter_eq]
  · intro hfalse
    exact absurd hfalse (by simp [reflectState])
  · intro _
    show s.reflections ++ [s.stepsTaken] = [1]
    rw [h.refl_off hr, h1]
    rfl

/-! ## Theorems: master soundness of the loop -/

theorem finish_props {cfg : RunConfig} {allowed : List String}
    {env : String → String → Option String} {s : LoopState}
    (h : Inv cfg allowed env s) {ans : String} {reason : Reason}
    (hAns : reason = Reason.failed → ans = "") :
    GoodResult cfg allowed env (finish s ans reason) := by
  refine ⟨?_, hAns, rfl, ?_, h.remote_allowed, h.remote_le, h.steps_ok, h.meter_eq⟩
  · show s.steps.length ≤ cfg.budget
    rw [h.steps_len]; exact h.steps_le
  · show s.reflections = [] ∨ s.reflections = [1]
    cases hr : s.reflected
    · exact Or.inl (h.refl_off hr)
    · exact Or.inr (h.refl_on hr)

theorem loop_sound (cfg : RunConfig) (allowed : List String)
    (env : String → String → Option String) (f : Nat → Exchange) :
    ∀ fuel s, Inv cfg allowed env s →
      GoodResult cfg allowed env (loop cfg allowed env f fuel s) := by
  intro fuel
  induction fuel with
  | zero =>
      intro s h
      exact finish_props h (fun _ => rfl)
  | succ n ih =>
      intro s h
      rw [loop]
      split
      · split
        · exact finish_props (inv_noteExchange h _) (fun _ => rfl)
        · exact finish_props (inv_finalState (inv_noteExchange h _) (by assumption))
            (fun hx => Reason.noConfusion hx)
        · dsimp only
          split
          · rename_i hcond
            split
            · exact finish_props
                (inv_reflectState
                  (inv_toolCycleState (inv_noteExchange h _) (by assumption) _ _)
                  hcond.2 hcond.1 _)
                (fun _ => rfl)
            · exact ih _
                (inv_reflectState
                  (inv_toolCycleState (inv_noteExchange h _) (by assumption) _ _)
                  hcond.2 hcond.1 _)
          · exact ih _ (inv_toolCycleState (inv_noteExchange h _) (by assumption) _ _)
      · exact finish_props h (fun _ => rfl)

theorem run_sound (cfg : RunConfig) (advertised : List String)
    (env : String → String → Option String) (f : Nat → Exchange) :
    GoodResult cfg (gateAllowed advertised cfg.disallowed) env
      (run cfg advertised env f) :=
  loop_sound cfg (gateAllowed advertised cfg.disallowed) env f (cfg.budget + 1)
    initState (inv_init ..)

/-! ## Theorems: more projection lemmas -/

@[simp]
theorem noteExchange_stepsTaken (s : LoopState) (u : UsageRecord) :
    (noteExchange s u).stepsTaken = s.stepsTaken := rfl

@[simp]
theorem noteExchange_reflected (s : LoopState) (u : UsageRecord) :
    (noteExchange s u).reflected = s.reflected := rfl

@[simp]
theorem noteExchange_reflections (s : LoopState) (u : UsageRecord) :
    (noteExchange s u).reflections = s.reflections := rfl

@[simp]
theorem noteExchange_idx (s : LoopState) (u : UsageRecord) :
    (noteExchange s u).idx = s.idx + 1 := rfl

@[simp]
theorem reflectState_stepsTaken (u : UsageRecord) (s : LoopState) :
    (reflectState u s).stepsTaken = s.stepsTaken := rfl

@[simp]
theorem reflectState_reflected (u : UsageRecord) (s : LoopState) :
    (reflectState u s).reflected = true := rfl

@[simp]
theorem reflectState_reflections (u : UsageRecord) (s : LoopState) :
    (reflectState u s).reflections = s.reflections ++ [s.stepsTaken] := rfl

@[simp]
theorem finalState_stepsTaken (s : LoopState) :
    (finalState s).stepsTaken = s.stepsTaken + 1 := rfl

@[simp]
theorem finish_reason_eq (s : LoopState) (ans : String) (reason : Reason) :
    (finish s ans reason).reason = reason := rfl

@[simp]
theorem finish_reflections_eq (s : LoopState) (ans : String) (reason : Reason) :
    (finish s ans reason).reflections = s.reflections := rfl

@[simp]
theorem finish_steps_eq (s : LoopState) (ans : String) (reason : Reason) :
    (finish s ans reason).steps = s.steps := rfl

/-! ## Theorems: budget exhaustion, failure, and reflection behaviour -/

theorem loop_alltool (cfg : RunConfig) (allowed : List String)
    (env : String → String → Option String) (f : Nat → Exchange)
    (hf : ∀ i, ∃ n a, (f i).1 = LLMResponse.tool n a) :
    ∀ fuel s, Inv cfg allowed env s → cfg.budget + 1 = s.stepsTaken + fuel →
      (loop cfg allowed env f fuel s).steps.length = cfg.budget ∧
      (loop cfg allowed env f fuel s).reason = Reason.budgetExhausted := by
  intro fuel
  induction fuel with
  | zero =>
      intro s h hfuel
      exact absurd hfuel (by have := h.steps_le; omega)
  | succ n ih =>
      intro s h hfuel
      rw [loop]
      split
      · split
        · rename_i heq
          obtain ⟨n', a', ht⟩ := hf s.idx
          rw [ht] at heq
          exact LLMResponse.noConfusion heq
        · rename_i heq
          obtain ⟨n', a', ht⟩ := hf s.idx
          rw [ht] at heq
          exact LLMResponse.noConfusion heq
        · dsimp only
          split
          · rename_i hcond
            split
            · rename_i heq2
              obtain ⟨n', a', ht⟩ := hf _
              rw [ht] at heq2
              exact LLMResponse.noConfusion heq2
            · apply ih
              · exact inv_reflectState
                  (inv_toolCycleState (inv_noteExchange h _) (by assumption) _ _)
                  hcond.2 hcond.1 _
              · simp only [reflectState_stepsTaken, toolCycleState_stepsTaken,
                  noteExchange_stepsTaken]
                omega
          · apply ih
            · exact inv_toolCycleState (inv_noteExchange h _) (by assumption) _ _
            · simp only [toolCycleState_stepsTaken, noteExchange_stepsTaken]
              omega
      · rename_i hb
        refine ⟨?_, rfl⟩
        show s.steps.length = cfg.budget
        have h1 := h.steps_le
        have h2 := h.steps_len
        omega

theorem run_alltool (cfg : RunConfig) (advertised : List String)
    (env : String → String → Option String) (f : Nat → Exchange)
    (hf : ∀ i, ∃ n a, (f i).1 = LLMResponse.tool n a) :
    (run cfg advertised env f).steps.length = cfg.budget ∧
    (run cfg advertised env f).reason = Reason.budgetExhausted :=
  loop_alltool cfg (gateAllowed advertised cfg.disallowed) env f hf
    (cfg.budget + 1) initState (inv_init ..) (by simp [initState])

theorem loop_noerror (cfg : RunConfig) (allowed : List String)
    (env : String → String → Option String) (f : Nat → Exchange)
    (hf : ∀ i, (f i).1 ≠ LLMResponse.error) :
    ∀ fuel s, (loop cfg allowed env f fuel s).reason ≠ Reason.failed := by
  intro fuel
  induction fuel with
  | zero => intro s; simp [loop]
  | succ n ih =>
      intro s
      rw [loop]
      split
      · split
        · rename_i heq
          exact absurd heq (hf _)
        · simp
        · dsimp only
          split
          · split
            · rename_i heq2
              exact absurd heq2 (hf _)
            · exact ih _
          · exact ih _
      · simp

theorem run_noerror (cfg : RunConfig) (advertised : List String)
    (env : String → String → Option String) (f : Nat → Exchange)
    (hf : ∀ i, (f i).1 ≠ LLMResponse.error) :
    (run cfg advertised env f).reason ≠ Reason.failed :=
  loop_noerror cfg (gateAllowed advertised cfg.disallowed) env f hf
    (cfg.budget + 1) initState

theorem loop_reflect_stable (cfg : RunConfig) (allowed : List String)
    (env : String → String → Option String) (f : Nat → Exchange) :
    ∀ fuel s, s.reflected = true →
      (loop cfg allowed env f fuel s).reflections = s.reflections := by
  intro fuel
  induction fuel with
  | zero => intro s _; rfl
  | succ n ih =>
      intro s hr
      rw [loop]
      split
      · split
        · rfl
        · rfl
        · dsimp only
          split
          · rename_i hcond
            obtain ⟨-, h2⟩ := hcond
            rw [toolCycleState_reflected, noteExchange_reflected, hr] at h2
            exact Bool.noConfusion h2
          · rw [ih _ (by rw [toolCycleState_reflected, noteExchange_reflected]; exact hr)]
            rw [toolCycleState_reflections, noteExchange_reflections]
      · rfl

theorem loop_reflect_first (cfg : RunConfig) (allowed : List String)
    (env : String → String → Option String) (f : Nat → Exchange)
    (fuel : Nat) (s : LoopState)
    (hb : s.stepsTaken < cfg.budget) (hs0 : s.stepsTaken = 0)
    (hr : s.reflected = false) (hrefl : s.reflections = [])
    (n a : String) (h0 : (f s.idx).1 = LLMResponse.tool n a) :
    (loop cfg allowed env f (fuel + 1) s).reflections = [1] := by
  rw [loop, if_pos hb]
  simp only [h0]
  rw [if_pos (show _ ∧ _ from ⟨by simp [hs0], by simp [hr]⟩)]
  split
  · simp [hs0, hrefl]
  · rw [loop_reflect_stable cfg allowed env f _ _ (by simp)]
    simp [hs0, hrefl]

theorem run_reflect_first (cfg : RunConfig) (advertised : List String)
    (env : String → String → Option String) (f : Nat → Exchange)
    (hb : 0 < cfg.budget) (n a : String) (h0 : (f 0).1 = LLMResponse.tool n a) :
    (run cfg advertised env f).reflections = [1] :=
  loop_reflect_first cfg (gateAllowed advertised cfg.disallowed) env f
    cfg.budget initState hb rfl rfl rfl n a h0

theorem run_first_error (cfg : RunConfig) (advertised : List String)
    (env : String → String → Option String) (f : Nat → Exchange)
    (hb : 0 < cfg.budget) (h0 : (f 0).1 = LLMResponse.error) :
    (run cfg advertised env f).reason = Reason.failed := by
  unfold run
  rw [loop, if_pos (show initState.stepsTaken < cfg.budget from hb)]
  simp only [show (f initState.idx).1 = LLMResponse.error from h0]
  rfl

theorem gateAllowed_contains (advertised disallowed : List String) (t : String) :
    (gateAllowed advertised disallowed).contains t = true ↔
      advertised.contains t = true ∧ disallowed.contains t = false := by
  simp [gateAllowed, List.mem_filter]

theorem script_budget_pos : ∀ cfg ∈ scriptConfigs, 0 < cfg.budget := by
  intro cfg hmem
  simp [scriptConfigs] at hmem
  rcases hmem with rfl | rfl | rfl <;> decide

/-! ## Claim C1 -/

/-- C1, counterexample: in the restaurants script, when agent.run raises (an
exception or a cancellation) while a session is open, the guarded
client.close_all_sessions() call at the end of main is never reached, so the
claim that the cleanup call executes on every exit path with an open session
is false on the code. -/
theorem claim_C1_counterexample :
    restaurants_main_cleanup AgentOutcome.raises true = false := by decide

/-- C1, amended: the Airbnb script executes the guarded cleanup on every exit
path of agent.run (it sits in a finally block), running close_all_sessions
exactly when at least one session is open; the restaurants and stocks scripts
execute it exactly when agent.run returns normally and a session is open, and
never when agent.run raises. -/
theorem claim_C1_amended :
    (∀ o b, airbnb_cleanup o b = b) ∧
    (∀ r b, restaurants_main_cleanup (AgentOutcome.returns r) b = b) ∧
    (∀ r b, stocks_run_cleanup (AgentOutcome.returns r) b = b) ∧
    (∀ b, restaurants_main_cleanup AgentOutcome.raises b = false) ∧
    (∀ b, stocks_run_cleanup AgentOutcome.raises b = false) := by
  refine ⟨fun o b => ?_, fun r b => rfl, fun r b => rfl, fun b => rfl, fun b => rfl⟩
  cases o <;> rfl

/-! ## Claim C2 -/

/-- C2: for each script configuration (step budget 40 for restaurants, 60 for
stocks, 30 for Airbnb) the orchestration loop records at most budget-many
steps; and when the model requests a tool call on every exchange, so that no
final answer is produced within the budget, exactly budget-many steps are
recorded and the run terminates budget-exhausted. -/
theorem claim_C2 :
    ∀ cfg ∈ scriptConfigs, ∀ (advertised : List String)
      (env : String → String → Option String) (f : Nat → Exchange),
      (run cfg advertised env f).steps.length ≤ cfg.budget ∧
      ((∀ i, ∃ n a, (f i).1 = LLMResponse.tool n a) →
        (run cfg advertised env f).steps.length = cfg.budget ∧
        (run cfg advertised env f).reason = Reason.budgetExhausted) := by
  intro cfg _ advertised env f
  exact ⟨(run_sound cfg advertised env f).1,
    fun hf => run_alltool cfg advertised env f hf⟩

/-- C2 witness, at the restaurants configuration: a model that always requests
an allowed navigation tool exhausts the budget with exactly 40 recorded
steps. -/
theorem claim_C2_witness :
    (run restaurants_agent ["navigate"] (fun _ _ => some "page")
        (fun _ => (LLMResponse.tool "navigate" "u", ⟨2, 1⟩))).steps.length
      = restaurants_agent.budget ∧
    (run restaurants_agent ["navigate"] (fun _ _ => some "page")
        (fun _ => (LLMResponse.tool "navigate" "u", ⟨2, 1⟩))).reason
      = Reason.budgetExhausted := by
  have h := claim_C2 restaurants_agent (by decide) ["navigate"]
    (fun _ _ => some "page") (fun _ => (LLMResponse.tool "navigate" "u", ⟨2, 1⟩))
  exact h.2 (fun i => ⟨"navigate", "u", rfl⟩)

/-! ## Claim C3 -/

/-- C3, counterexample: a run whose very first LLM exchange already yields a
final answer performs zero reflection checkpoints, refuting the claim that the
checkpoint is entered exactly once in every run. -/
theorem claim_C3_counterexample :
    (run restaurants_agent [] (fun _ _ => none)
        (fun _ => (LLMResponse.final "done", ⟨1, 1⟩))).reflections.length ≠ 1 := by
  decide

/-- C3, amended: in each script configuration the reflection checkpoint is
entered at most once per run, always recorded at steps-taken count 1 (that is,
immediately after the step with index 1, the first observation) and never a
second time; it is entered exactly once whenever the first LLM exchange
requests a tool call, while a run that answers or fails on its first exchange
performs no reflection. -/
theorem claim_C3_amended :
    ∀ cfg ∈ scriptConfigs, ∀ (advertised : List String)
      (env : String → String → Option String) (f : Nat → Exchange),
      ((run cfg advertised env f).reflections = [] ∨
        (run cfg advertised env f).reflections = [1]) ∧
      ((∃ n a, (f 0).1 = LLMResponse.tool n a) →
        (run cfg advertised env f).reflections = [1]) := by
  intro cfg hmem advertised env f
  refine ⟨(run_sound cfg advertised env f).2.2.2.1, ?_⟩
  rintro ⟨n, a, h0⟩
  exact run_reflect_first cfg advertised env f (script_budget_pos cfg hmem) n a h0

/-- C3 witness, at the Airbnb configuration: a run whose first exchange requests
a tool call reflects exactly once, at steps-taken count 1. -/
theorem claim_C3_witness :
    (run airbnb_agent ["search"] (fun _ _ => some "r")
        (fun _ => (LLMResponse.tool "search" "ibiza", ⟨3, 1⟩))).reflections = [1] := by
  have h := claim_C3_amended airbnb_agent (by decide) ["search"]
    (fun _ _ => some "r") (fun _ => (LLMResponse.tool "search" "ibiza", ⟨3, 1⟩))
  exact h.2 ⟨"search", "ibiza", rfl⟩

/-! ## Claim C4 -/

/-- C4: in each script run, every tool name forwarded to the remote client is
among the advertised tools and outside the disallow-list (so a disallowed name
never reaches the remote client), and every recorded step that requested a
disallowed tool carries the local rejection marker as its observation. -/
theorem claim_C4 :
    ∀ cfg ∈ scriptConfigs, ∀ (advertised : List String)
      (env : String → String → Option String) (f : Nat → Exchange),
      (∀ t ∈ (run cfg advertised env f).remoteCalls,
        advertised.contains t = true ∧ cfg.disallowed.contains t = false) ∧
      (∀ st ∈ (run cfg advertised env f).steps, ∀ n a,
        st.action = Action.tool n a → cfg.disallowed.contains n = true →
        st.obs = some ToolOutcome.toolNotAllowed) := by
  intro cfg _ advertised env f
  have hs := run_sound cfg advertised env f
  constructor
  · intro t ht
    exact (gateAllowed_contains advertised cfg.disallowed t).mp
      (hs.2.2.2.2.1 t ht)
  · intro st hst n a hact hdis
    have hok := hs.2.2.2.2.2.2.1 st hst
    simp only [StepOk, hact] at hok
    cases hcc : (gateAllowed advertised cfg.disallowed).contains n with
    | false => exact hok.1 hcc
    | true =>
        have hgate := (gateAllowed_contains advertised cfg.disallowed n).mp hcc
        rw [hgate.2] at hdis
        exact Bool.noConfusion hdis

/-- C4 witness: with the restaurants configuration (disallow-list [shell]), a
run that requests the allowed navigate tool and then the disallowed shell tool
forwards only navigate, and the shell step is recorded with the rejection
marker. -/
theorem claim_C4_witness :
    (["navigate", "shell"].contains "navigate" = true ∧
      restaurants_agent.disallowed.contains "navigate" = false) ∧
    (⟨2, Action.tool "shell" "rm", some ToolOutcome.toolNotAllowed⟩ : Step).obs
      = some ToolOutcome.toolNotAllowed := by
  have h := claim_C4 restaurants_agent (by decide) ["navigate", "shell"]
    (fun _ _ => some "pg")
    (fun i => if i = 0 then (LLMResponse.tool "navigate" "u", ⟨2, 1⟩)
      else if i = 2 then (LLMResponse.tool "shell" "rm", ⟨2, 1⟩)
      else (LLMResponse.final "done", ⟨2, 1⟩))
  exact ⟨h.1 "navigate" (by decide), h.2 _ (by decide) "shell" "rm" rfl (by decide)⟩

/-! ## Claim C5 -/

/-- C5, counterexample: the Airbnb script reports no usage totals at all, even
for a run that performed an LLM exchange, so the claim that in every run of
each script the reported totals equal the per-exchange sums fails for the
Airbnb script. -/
theorem claim_C5_counterexample :
    airbnb_report (run airbnb_agent [] (fun _ _ => none)
        (fun _ => (LLMResponse.final "x", ⟨5, 3⟩))) = none ∧
    (run airbnb_agent [] (fun _ _ => none)
        (fun _ => (LLMResponse.final "x", ⟨5, 3⟩))).exchangeLog ≠ [] :=
  ⟨rfl, by decide⟩

/-- C5, amended: the restaurants and stocks scripts report usage totals, and
those totals equal the sums of the token counts and of the costs reported by
every individual LLM exchange of the run (the exchange log, which includes the
reflection exchange), with no omissions and no double counting, whatever the
terminal state; the Airbnb script reports no usage totals. -/
theorem claim_C5_amended :
    ∀ cfg ∈ [restaurants_agent, stocks_agent], ∀ (advertised : List String)
      (env : String → String → Option String) (f : Nat → Exchange),
      ∃ u, metered_report (run cfg advertised env f) = some u ∧
        u.tokens
          = ((run cfg advertised env f).exchangeLog.map UsageRecord.tokens).sum ∧
        u.cost
          = ((run cfg advertised env f).exchangeLog.map UsageRecord.cost).sum := by
  intro cfg _ advertised env f
  have hu := (run_sound cfg advertised env f).2.2.2.2.2.2.2
  exact ⟨(run cfg advertised env f).usage, rfl,
    by rw [hu, meterOf_tokens], by rw [hu, meterOf_cost]⟩

/-- C5 witness, at the stocks configuration: the reported totals of a concrete
run equal the sums over its exchange log. -/
theorem claim_C5_witness :
    ∃ u, metered_report (run stocks_agent [] (fun _ _ => none)
        (fun _ => (LLMResponse.final "t", ⟨7, 4⟩))) = some u ∧
      u.tokens = ((run stocks_agent [] (fun _ _ => none)
        (fun _ => (LLMResponse.final "t", ⟨7, 4⟩))).exchangeLog.map
          UsageRecord.tokens).sum ∧
      u.cost = ((run stocks_agent [] (fun _ _ => none)
        (fun _ => (LLMResponse.final "t", ⟨7, 4⟩))).exchangeLog.map
          UsageRecord.cost).sum :=
  claim_C5_amended stocks_agent (by decide) [] (fun _ _ => none)
    (fun _ => (LLMResponse.final "t", ⟨7, 4⟩))

/-! ## Claim C6 -/

/-- C6: for each script configuration the run interface is a total function
into RunResult (no exception escapes); whenever the completion reason is
failed the answer string is empty and zero sessions remain open at return, and
an unrecoverable LLM-service error on the first exchange does produce the
failed reason. -/
theorem claim_C6 :
    ∀ cfg ∈ scriptConfigs, ∀ (advertised : List String)
      (env : String → String → Option String) (f : Nat → Exchange),
      ((run cfg advertised env f).reason = Reason.failed →
        (run cfg advertised env f).answer = "" ∧
        (run cfg advertised env f).openSessions = 0) ∧
      ((f 0).1 = LLMResponse.error →
        (run cfg advertised env f).reason = Reason.failed) := by
  intro cfg hmem advertised env f
  have hs := run_sound cfg advertised env f
  exact ⟨fun hfail => ⟨hs.2.1 hfail, hs.2.2.1⟩,
    fun h0 => run_first_error cfg advertised env f (script_budget_pos cfg hmem) h0⟩

/-- C6 witness, at the stocks configuration: a run whose LLM service errors on
the first exchange fails, returns the empty answer, and leaves zero sessions
open. -/
theorem claim_C6_witness :
    (run stocks_agent [] (fun _ _ => none)
        (fun _ => (LLMResponse.error, ⟨1, 1⟩))).reason = Reason.failed ∧
    (run stocks_agent [] (fun _ _ => none)
        (fun _ => (LLMResponse.error, ⟨1, 1⟩))).answer = "" ∧
    (run stocks_agent [] (fun _ _ => none)
        (fun _ => (LLMResponse.error, ⟨1, 1⟩))).openSessions = 0 := by
  have h := claim_C6 stocks_agent (by decide) [] (fun _ _ => none)
    (fun _ => (LLMResponse.error, ⟨1, 1⟩))
  have hfail := h.2 rfl
  exact ⟨hfail, (h.1 hfail).1, (h.1 hfail).2⟩

/-! ## Claim C7 -/

/-- C7: in each script run, tool-level failures never terminate the run: if the
LLM service never errors, the run never ends with the failed reason, no matter
how many tool calls are rejected or fail remotely; each such failure is
recorded in the step transcript as an observation visible to the model (the
rejection marker for a disallowed name, the execution-error marker for a
failing remote call); and the orchestrator performs no automatic retry, so the
remote client is contacted at most once per recorded step. -/
theorem claim_C7 :
    ∀ cfg ∈ scriptConfigs, ∀ (advertised : List String)
      (env : String → String → Option String) (f : Nat → Exchange),
      ((∀ i, (f i).1 ≠ LLMResponse.error) →
        (run cfg advertised env f).reason ≠ Reason.failed) ∧
      (∀ st ∈ (run cfg advertised env f).steps, ∀ n a,
        st.action = Action.tool n a →
        ((gateAllowed advertised cfg.disallowed).contains n = false →
          st.obs = some ToolOutcome.toolNotAllowed) ∧
        ((gateAllowed advertised cfg.disallowed).contains n = true →
          env n a = none → st.obs = some ToolOutcome.toolExecutionError)) ∧
      (run cfg advertised env f).remoteCalls.length
        ≤ (run cfg advertised env f).steps.length := by
  intro cfg _ advertised env f
  have hs := run_sound cfg advertised env f
  refine ⟨fun hf => run_noerror cfg advertised env f hf, ?_, hs.2.2.2.2.2.1⟩
  intro st hst n a hact
  have hok := hs.2.2.2.2.2.2.1 st hst
  simp only [StepOk, hact] at hok
  refine ⟨hok.1, fun hc henv => ?_⟩
  have hx := hok.2 hc
  rw [henv] at hx
  exact hx

/-- C7 witness, at the Airbnb configuration: a run whose only tool call fails
remotely does not end failed, and the failing step carries the execution-error
marker. -/
theorem claim_C7_witness :
    (run airbnb_agent ["nav"] (fun _ _ => none)
        (fun i => if i = 0 then (LLMResponse.tool "nav" "u", ⟨1, 1⟩)
          else (LLMResponse.final "done", ⟨1, 1⟩))).reason ≠ Reason.failed ∧
    (⟨1, Action.tool "nav" "u", some ToolOutcome.toolExecutionError⟩ : Step).obs
      = some ToolOutcome.toolExecutionError := by
  have h := claim_C7 airbnb_agent (by decide) ["nav"] (fun _ _ => none)
    (fun i => if i = 0 then (LLMResponse.tool "nav" "u", ⟨1, 1⟩)
      else (LLMResponse.final "done", ⟨1, 1⟩))
  refine ⟨h.1 ?_, (h.2.1 _ (by decide) "nav" "u" rfl).2 (by decide) rfl⟩
  intro i hcontra
  by_cases hi : i = 0 <;> simp [hi] at hcontra

/-! ## String helpers for the prompt claims -/

theorem append_ne_empty_left (s t : String) (h : s ≠ "") : s ++ t ≠ "" := by
  intro heq
  apply h
  have hd := congrArg String.data heq
  simp [String.data_append] at hd
  cases s
  simp_all

theorem append_ne_empty_right (s t : String) (h : t ≠ "") : s ++ t ≠ "" := by
  intro heq
  apply h
  have hd := congrArg String.data heq
  simp [String.data_append] at hd
  cases t
  simp_all

/-! ## Claim C8 -/

/-- C8: whatever the parsed command-line arguments, the task string handed to
the agent is a single non-empty string: the restaurants full prompt, the stocks
make_prompt output, and the literal Airbnb query are all non-empty. -/
theorem claim_C8 :
    (∀ city cuisine budget guests : String,
      restaurants_full_prompt city cuisine budget guests ≠ "") ∧
    (∀ a : StocksArgs, make_prompt a ≠ "") ∧
    airbnb_query ≠ "" := by
  refine ⟨fun city cuisine budget guests => ?_, fun a => ?_, by decide⟩
  · unfold restaurants_full_prompt
    apply append_ne_empty_left
    apply append_ne_empty_left
    decide
  · unfold make_prompt
    apply append_ne_empty_left
    apply append_ne_empty_right
    decide

/-! ## Claim C9 -/

/-- C9: the stocks script accepts --limit at every integer value, including
zero and negative ones: stocks_parse_args applies only the strategy choices
check and no range check against the documented 1-10 bound, and the resulting
prompt interpolates the given integer both into the formatted system prompt
and into the user request. -/
theorem claim_C9 :
    ∀ (sector strategy : String) (min_cap limit : Int),
      strategy = "value" ∨ strategy = "growth" ∨ strategy = "dividend" →
      ∃ a, stocks_parse_args sector strategy min_cap limit = some a ∧
        a.limit = limit ∧
        (∃ p q, stocks_system_prompt a.limit = p ++ toString a.limit ++ q) ∧
        (∃ p q, stocks_user_req a = p ++ toString a.limit ++ q) := by
  intro sector strategy min_cap limit hstrat
  refine ⟨⟨sector, strategy, min_cap, limit⟩, ?_, rfl, ?_, ?_⟩
  · unfold stocks_parse_args
    rw [if_pos hstrat]
  · refine ⟨"You are an equity-research analyst armed with a headless browser.\n" ++
      "Workflow:\n" ++
      "1. Use Google / Yahoo Finance / Finviz (or similar) to pull **live** data.\n" ++
      "2. After the first scrape, pause and reflect in ONE sentence on whether the " ++
      "data gathered is adequate for screening; adjust the plan if needed.\n" ++
      "3. Rank up to ",
      " tickers by the chosen strategy, justifying each pick " ++
      "with a single line.\n\n" ++
      "Output must be a markdown table with these columns:\n" ++
      "| Rank | Ticker | Price | P/E | Yield | Reason |", ?_⟩
    simp only [stocks_system_prompt, String.append_assoc]
  · refine ⟨"Find publicly-traded " ++ sector ++ " companies " ++
      "with a market cap above $" ++ commaFormatInt min_cap ++ ". " ++
      "Apply a " ++ strategy ++ " strategy and return your ",
      " top picks. " ++
      "Provide live fundamentals (price, P/E, dividend yield) and a short why.", ?_⟩
    simp only [stocks_user_req, String.append_assoc]

/-- C9 witness: the limit value -3, outside the documented 1-10 range, is
accepted and interpolated into both prompt parts. -/
theorem claim_C9_witness :
    ∃ a, stocks_parse_args "technology" "value" 0 (-3) = some a ∧
      a.limit = -3 ∧
      (∃ p q, stocks_system_prompt a.limit = p ++ toString a.limit ++ q) ∧
      (∃ p q, stocks_user_req a = p ++ toString a.limit ++ q) :=
  claim_C9 "technology" "value" 0 (-3) (Or.inl rfl)

/-! ## Claim C10 -/

/-- C10: prompt composition is deterministic and pure: equal parsed arguments
give identical stocks prompts and identical restaurants prompts; and in the
restaurants user query the cuisine clause appears when the cuisine argument is
non-empty, the budget clause appears when the budget argument is non-empty,
while with both arguments empty the query is exactly the clause-free string. -/
theorem claim_C10 :
    (∀ a b : StocksArgs, a.sector = b.sector → a.strategy = b.strategy →
      a.min_cap = b.min_cap → a.limit = b.limit → make_prompt a = make_prompt b) ∧
    (∀ c1 cu1 b1 g1 c2 cu2 b2 g2 : String, c1 = c2 → cu1 = cu2 → b1 = b2 →
      g1 = g2 →
      restaurants_full_prompt c1 cu1 b1 g1 = restaurants_full_prompt c2 cu2 b2 g2) ∧
    (∀ city cuisine budget guests : String, cuisine ≠ "" →
      ∃ p q, restaurants_user_query city cuisine budget guests
        = p ++ (cuisine ++ " ") ++ q) ∧
    (∀ city cuisine budget guests : String, budget ≠ "" →
      ∃ p q, restaurants_user_query city cuisine budget guests
        = p ++ (" with a budget of " ++ budget) ++ q) ∧
    (∀ city guests : String, restaurants_user_query city "" "" guests
      = "Find the best " ++ "restaurant in " ++ city ++ " for " ++ guests ++
        " guests" ++ ". Use Google search and any review sites you can access. " ++
        "Return a ranked list with ratings and a short rationale.") := by
  refine ⟨?_, ?_, ?_, ?_, ?_⟩
  · intro a b h1 h2 h3 h4
    obtain ⟨s1, t1, m1, l1⟩ := a
    obtain ⟨s2, t2, m2, l2⟩ := b
    dsimp at h1 h2 h3 h4
    subst h1; subst h2; subst h3; subst h4
    rfl
  · intro c1 cu1 b1 g1 c2 cu2 b2 g2 h1 h2 h3 h4
    subst h1; subst h2; subst h3; subst h4
    rfl
  · intro city cuisine budget guests hcu
    refine ⟨"Find the best ",
      "restaurant in " ++ city ++ " for " ++ guests ++ " guests" ++
        (if budget = "" then "" else " with a budget of " ++ budget) ++
        ". Use Google search and any review sites you can access. " ++
        "Return a ranked list with ratings and a short rationale.", ?_⟩
    simp only [restaurants_user_query, if_neg hcu, String.append_assoc]
  · intro city cuisine budget guests hbu
    refine ⟨"Find the best " ++
      (if cuisine = "" then "" else cuisine ++ " ") ++
      "restaurant in " ++ city ++ " for " ++ guests ++ " guests",
      ". Use Google search and any review sites you can access. " ++
      "Return a ranked list with ratings and a short rationale.", ?_⟩
    simp only [restaurants_user_query, if_neg hbu, String.append_assoc]
  · intro city guests
    simp [restaurants_user_query, String.append_assoc]

/-- C10 witness: concrete instances of the determinism and clause-inclusion
parts. -/
theorem claim_C10_witness :
    make_prompt ⟨"tech", "value", 5, 3⟩ = make_prompt ⟨"tech", "value", 5, 3⟩ ∧
    (∃ p q, restaurants_user_query "Portland" "ramen" "" "2"
      = p ++ ("ramen" ++ " ") ++ q) ∧
    (∃ p q, restaurants_user_query "Portland" "" "under $40" "2"
      = p ++ (" with a budget of " ++ "under $40") ++ q) :=
  ⟨claim_C10.1 ⟨"tech", "value", 5, 3⟩ ⟨"tech", "value", 5, 3⟩ rfl rfl rfl rfl,
    claim_C10.2.2.1 "Portland" "ramen" "" "2" (by decide),
    claim_C10.2.2.2.1 "Portland" "" "under $40" "2" (by decide)⟩

end MCPAgentVerif
